import Mathlib

/-!
Shallow embedding of traefik's file provider (`provider/file/file.go`).

Opaque payloads (`*config.Router`, `*config.Middleware`, `*config.Service`,
`*tls.Configuration`) are modelled as `Nat` identities (a pointer is an
identity; `*tls.Configuration` dedup in the Go code is by pointer identity,
so a `Nat` reference id is the faithful observable).  Go maps `nil` vs
non-`nil` is modelled by `Option` around an association list; Go slices
`nil` vs non-`nil` by `Option` around a list.  The external collaborators
(reader, template renderer, structured decoder) are modelled by attaching
their outcome to each file of the modelled filesystem, since they are not
part of this repository's source.  Go map iteration order (used when the
aggregator flushes its per-directory TLS dedup set into the configuration)
is unspecified; it is modelled by an order oracle `σ : List Nat → List Nat`
which a faithful run instantiates with any permutation-producing function.
-/

namespace FileProvider

instance exceptDecEq {ε α : Type} [DecidableEq ε] [DecidableEq α] :
    DecidableEq (Except ε α) := fun a b =>
  match a, b with
  | .error x, .error y =>
    if h : x = y then .isTrue (by rw [h])
    else .isFalse (by intro hc; cases hc; exact h rfl)
  | .error _, .ok _ => .isFalse (by intro hc; cases hc)
  | .ok _, .error _ => .isFalse (by intro hc; cases hc)
  | .ok x, .ok y =>
    if h : x = y then .isTrue (by rw [h])
    else .isFalse (by intro hc; cases hc; exact h rfl)

/-- Association-list lookup keyed by name (models Go map indexing). -/
def lookupA (n : String) : List (String × Nat) → Option Nat
  | [] => none
  | (k, v) :: rest => if k = n then some v else lookupA n rest

/-- Model of `config.Configuration`: routers/middlewares/services are Go maps
(`none` = nil map), TLS is a Go slice of pointers (`none` = nil slice). -/
structure Configuration where
  Routers     : Option (List (String × Nat))
  Middlewares : Option (List (String × Nat))
  Services    : Option (List (String × Nat))
  TLS         : Option (List Nat)
  deriving Repr, DecidableEq

/-- The configuration built by the nil-normalization branch of
`loadFileConfig` and as the initial accumulator of
`loadFileConfigFromDirectory`: three empty non-nil maps, TLS left nil. -/
def emptyConfiguration : Configuration :=
  { Routers := some [], Middlewares := some [], Services := some [], TLS := none }

/-- Outcome of the external render/decode collaborators on one file's
content: `CreateConfiguration` (template path) and `DecodeConfiguration`
(direct path) each return an error or a possibly-nil configuration. -/
structure ContentData where
  createResult : Except String (Option Configuration)
  decodeResult : Except String (Option Configuration)
  deriving Repr, DecidableEq

/-- A file as the provider observes it: a read error, or readable content. -/
def FileData := Except String ContentData
  deriving Repr, DecidableEq

/-- The rest of `loadFileConfig` after `readFile`: pick the template or the
direct decode path, then apply the nil-normalization of lines 190-197
(`configuration == nil || Routers == nil && Middlewares == nil &&
Services == nil && TLS == nil`). -/
def loadFileConfigOnData (fd : FileData) (parseTemplate : Bool) :
    Except String Configuration :=
  match fd with
  | .error e => .error ("error reading configuration file: " ++ e)
  | .ok cd =>
    match (if parseTemplate then cd.createResult else cd.decodeResult) with
    | .error e => .error e
    | .ok copt =>
      match copt with
      | none => .ok emptyConfiguration
      | some c =>
        if c.Routers = none ∧ c.Middlewares = none ∧ c.Services = none ∧
            c.TLS = none then
          .ok emptyConfiguration
        else
          .ok c

/-- A directory tree as returned by the listing calls: each entry is a
subdirectory with its own listing, or a file with its observed data. -/
inductive Entry where
  | dir (name : String) (entries : List Entry)
  | file (name : String) (fd : FileData)
  deriving Repr

/-- The modelled filesystem: path → file data, path → directory listing.
A path present in neither mapping does not exist (`os.Stat` fails). -/
structure FS where
  files : List (String × FileData)
  dirs  : List (String × List Entry)

def FS.lookupFile (fs : FS) (p : String) : Option FileData :=
  (fs.files.find? (fun kv => kv.1 = p)).map Prod.snd

def FS.lookupDir (fs : FS) (p : String) : Option (List Entry) :=
  (fs.dirs.find? (fun kv => kv.1 = p)).map Prod.snd

/-- Stat check: `os.Stat` succeeds iff the path exists in the modelled filesystem. -/
def FS.statOk (fs : FS) (p : String) : Bool :=
  (fs.lookupFile p).isSome || (fs.lookupDir p).isSome

/-- Model of `readFile`: error on empty filename, otherwise the file's data (a
missing file reads as an IO error, as `ioutil.ReadFile` would fail). -/
def readFileD (fs : FS) (filename : String) : FileData :=
  if filename = "" then .error ("invalid filename: " ++ filename)
  else
    match fs.lookupFile filename with
    | some fd => fd
    | none => .error ("open " ++ filename ++ ": no such file or directory")

/-- Model of `loadFileConfig`: read the file, render-and-decode or decode directly,
then normalize. -/
def loadFileConfig (fs : FS) (filename : String) (parseTemplate : Bool) :
    Except String Configuration :=
  loadFileConfigOnData (readFileD fs filename) parseTemplate

/-- Model of `strings.HasSuffix` (external stdlib collaborator): does
`s` end in `suffix`? -/
def hasSuffix (s suffix : String) : Bool :=
  suffix.data.isSuffixOf s.data

/-- A structured-log warning entry; the constructor is the entity kind
(the `log.RouterName`/`MiddlewareName`/`ServiceName` field, or the TLS
`Warnf`), the argument identifies the entity. -/
inductive Warning where
  | routerConflict (name : String)
  | middlewareConflict (name : String)
  | serviceConflict (name : String)
  | tlsConflict (ref : Nat)
  deriving Repr, DecidableEq

/-- One `for name, conf := range c.X` merge loop of
`loadFileConfigFromDirectory`: a name already present in the accumulator
is kept and a warning is logged; otherwise the incoming entry is
inserted. -/
def mergeAssoc (mk : String → Warning) (acc : List (String × Nat)) :
    List (String × Nat) → List (String × Nat) × List Warning
  | [] => (acc, [])
  | (n, c) :: rest =>
    if (lookupA n acc).isSome then
      let r := mergeAssoc mk acc rest
      (r.1, mk n :: r.2)
    else
      mergeAssoc mk (acc ++ [(n, c)]) rest

/-- The three merge loops for one file's snapshot `c`, in source order
(routers, then middlewares, then services); the TLS slice of the
accumulator is untouched here (TLS goes through the per-directory dedup
set instead). -/
def mergeConfiguration (configuration c : Configuration) :
    Configuration × List Warning :=
  let r := mergeAssoc .routerConflict (configuration.Routers.getD [])
    (c.Routers.getD [])
  let m := mergeAssoc .middlewareConflict (configuration.Middlewares.getD [])
    (c.Middlewares.getD [])
  let s := mergeAssoc .serviceConflict (configuration.Services.getD [])
    (c.Services.getD [])
  ({ Routers := some r.1, Middlewares := some m.1, Services := some s.1,
     TLS := configuration.TLS }, r.2 ++ m.2 ++ s.2)

/-- The `for _, conf := range c.TLS` loop: `configTLSMaps` is modelled as
the list of keys in first-insertion order; a reference already in the set
is skipped with a logged warning. -/
def dedupTLS (seen : List Nat) : List Nat → List Nat × List Warning
  | [] => (seen, [])
  | x :: rest =>
    if x ∈ seen then
      let r := dedupTLS seen rest
      (r.1, .tlsConflict x :: r.2)
    else
      dedupTLS (seen ++ [x]) rest

/-- The final `for conf := range configTLSMaps { configuration.TLS =
append(configuration.TLS, conf) }` loop: appending nothing leaves a nil
slice nil; appending to a nil slice makes it non-nil. -/
def appendTLS (t : Option (List Nat)) (l : List Nat) : Option (List Nat) :=
  if l = [] then t else some (t.getD [] ++ l)

mutual

/-- The body of `loadFileConfigFromDirectory` after the listing succeeded
and the accumulator is initialized: walk the listing in order; recurse
into subdirectories (threading the accumulator, with a fresh TLS dedup
set per directory level); skip files whose name ends in neither `.toml`
nor `.tmpl`; build eligible files with template rendering and merge them.
At the end of this directory's listing, flush the dedup set — in the
iteration order `σ` the Go map range happens to produce — onto the
accumulator's TLS slice.  `ws` accumulates logged warnings in
chronological order. -/
def walkDir (σ : List Nat → List Nat) :
    List Entry → Configuration → List Nat → List Warning →
    Except String (Configuration × List Warning)
  | [], configuration, seen, ws =>
    .ok ({ configuration with TLS := appendTLS configuration.TLS (σ seen) },
      ws)
  | item :: rest, configuration, seen, ws =>
    match walkEntry σ item configuration seen with
    | .error e => .error e
    | .ok (c2, seen2, ws2) => walkDir σ rest c2 seen2 (ws ++ ws2)
termination_by structural l => l

/-- One iteration of the `for _, item := range fileList` loop body:
a subdirectory is recursed into (with its own fresh TLS dedup set, and
its error wrapped naming the subdirectory); a file with an unrecognized
extension is skipped; an eligible file is built with template rendering
enabled and merged.  Returns the updated accumulator, the updated
per-directory TLS dedup set, and the warnings this iteration logged. -/
def walkEntry (σ : List Nat → List Nat) :
    Entry → Configuration → List Nat →
    Except String (Configuration × List Nat × List Warning)
  | .dir dname sub, configuration, seen =>
    match walkDir σ sub configuration [] [] with
    | .error e =>
      .error ("unable to load content configuration from subdirectory "
        ++ dname ++ ": " ++ e)
    | .ok (c2, subws) => .ok (c2, seen, subws)
  | .file fname fd, configuration, seen =>
    if hasSuffix fname ".toml" || hasSuffix fname ".tmpl" then
      match loadFileConfigOnData fd true with
      | .error e => .error e
      | .ok c =>
        let mc := mergeConfiguration configuration c
        let dt := dedupTLS seen (c.TLS.getD [])
        .ok (mc.1, dt.1, mc.2 ++ dt.2)
    else .ok (configuration, seen, [])
termination_by structural e => e
end

/-- Model of `loadFileConfigFromDirectory`: list the directory (error if
unlistable), initialize the accumulator with empty non-nil maps when this
is the root call, then walk. Logged warnings are dropped here, as the Go
logger is write-only. -/
def loadFileConfigFromDirectory (σ : List Nat → List Nat) (fs : FS)
    (directory : String) (configuration : Option Configuration) :
    Except String Configuration :=
  match fs.lookupDir directory with
  | none => .error ("unable to read directory " ++ directory)
  | some fileList =>
    (walkDir σ fileList (configuration.getD emptyConfiguration) [] []).map
      Prod.fst

/-- The provider's configuration fields (`Filename` and `Watch` live in
the embedded `BaseProvider` in Go). -/
structure Provider where
  Directory   : String
  Filename    : String
  TraefikFile : String
  Watch       : Bool

/-- Model of `BuildConfiguration`: precedence directory, then filename (template
rendering on), then the fallback `TraefikFile` (template rendering off),
else a configuration-target error. -/
def BuildConfiguration (p : Provider) (fs : FS) (σ : List Nat → List Nat) :
    Except String Configuration :=
  if p.Directory.length > 0 then
    loadFileConfigFromDirectory σ fs p.Directory none
  else if p.Filename.length > 0 then
    loadFileConfig fs p.Filename true
  else if p.TraefikFile.length > 0 then
    loadFileConfig fs p.TraefikFile false
  else
    .error "error using file configuration backend, no filename defined"

/-- Models `filepath.Dir` on slash-separated paths (external stdlib
collaborator): everything before the final separator, `.` when there is
none. -/
def dirName (p : String) : String :=
  let parts := p.splitOn "/"
  if parts.length ≤ 1 then "."
  else
    let d := String.intercalate "/" parts.dropLast
    if d = "" then "/" else d

/-- The filename component produced by `filepath.Split` (external stdlib
collaborator): everything after the final separator. -/
def baseName (p : String) : String := (p.splitOn "/").getLastD ""

/-- The `watchItem` computed in `Provide`: what the Watcher subscribes
to — the directory, or the parent directory of the configured (or
fallback) file. -/
def watchItemOf (p : Provider) : String :=
  if p.Directory.length > 0 then p.Directory
  else if p.Filename.length > 0 then dirName p.Filename
  else dirName p.TraefikFile

/-- The event filter inside `addWatcher`'s goroutine: with a directory
target every event is passed to the callback; with a file target only
events whose filename component equals the configured file's filename
component are. -/
def eventRelevant (p : Provider) (evtName : String) : Bool :=
  if p.Directory = "" then
    let filename := if p.Filename.length > 0 then p.Filename
      else p.TraefikFile
    baseName evtName = baseName filename
  else true

/-- Model of a `config.Message` sent on the configuration channel. -/
structure Message where
  ProviderName : String
  Configuration : Configuration
  deriving Repr, DecidableEq

/-- Model of `sendConfigToChannel`: the one message shape ever sent. -/
def sendConfigToChannel (c : Configuration) : Message :=
  { ProviderName := "file", Configuration := c }

/-- The `watchItem` computed in `watcherCallback` (note: the file itself,
not its parent directory), on which `os.Stat` is attempted. -/
def statTarget (p : Provider) : String :=
  if p.Directory.length > 0 then p.Directory
  else if p.Filename.length > 0 then p.Filename
  else p.TraefikFile

/-- Model of `watcherCallback`: stat the watch target (on failure log and return
without building); rebuild (on failure log and return without sending);
on success send exactly one message.  Returns (messages sent, error-level
logs). -/
def watcherCallback (p : Provider) (fs : FS) (σ : List Nat → List Nat)
    (_event : String) : List Message × List String :=
  let watchItem := statTarget p
  if fs.statOk watchItem = false then
    ([], ["Unable to watch " ++ watchItem])
  else
    match BuildConfiguration p fs σ with
    | .error e => ([], ["Error occurred during watcher callback: " ++ e])
    | .ok configuration => ([sendConfigToChannel configuration], [])

/-- The synchronous outcome of `Provide`: the returned error (if any),
the messages sent synchronously, and whether a watcher goroutine was
started (no watcher started means no message can ever be sent later). -/
structure ProvideOutcome where
  result : Except String Unit
  sent : List Message
  watcherStarted : Bool
  deriving Repr, DecidableEq

/-- Model of `Provide`: build once; on error return it with nothing sent and no
watcher; otherwise optionally install the watcher (`watcherOk` models
whether `fsnotify.NewWatcher`/`watcher.Add` succeed), then send the
initial snapshot. -/
def Provide (p : Provider) (fs : FS) (σ : List Nat → List Nat)
    (watcherOk : Bool) : ProvideOutcome :=
  match BuildConfiguration p fs σ with
  | .error e => { result := .error e, sent := [], watcherStarted := false }
  | .ok configuration =>
    if p.Watch then
      if watcherOk then
        { result := .ok (), sent := [sendConfigToChannel configuration],
          watcherStarted := true }
      else
        { result := .error "error adding file watcher", sent := [],
          watcherStarted := false }
    else
      { result := .ok (), sent := [sendConfigToChannel configuration],
        watcherStarted := false }

/-! Spec-side relations and projections used to state properties. -/

/-- Spec-side relation: two Go TLS slices are equal up to element order
(both nil, or both non-nil and permutations of each other). -/
def TLSEquiv : Option (List Nat) → Option (List Nat) → Prop
  | none, none => True
  | some l1, some l2 => l1.Perm l2
  | none, some _ => False
  | some _, none => False

/-- Spec-side relation: two snapshots are structurally identical except
that their TLS collections may differ in element order. -/
def ConfEquiv (c1 c2 : Configuration) : Prop :=
  c1.Routers = c2.Routers ∧ c1.Middlewares = c2.Middlewares ∧
    c1.Services = c2.Services ∧ TLSEquiv c1.TLS c2.TLS

/-- Spec-side relation on walk outcomes: same error, or snapshots related
by `ConfEquiv` with warning logs equal as multisets.  Warnings are
emitted while ranging over Go maps, whose iteration order is not a
cross-run guarantee, so only permutation equality of the logs is
asserted between two runs. -/
def WalkEquiv : Except String (Configuration × List Warning) →
    Except String (Configuration × List Warning) → Prop
  | .error e1, .error e2 => e1 = e2
  | .ok (c1, w1), .ok (c2, w2) => ConfEquiv c1 c2 ∧ w1.Perm w2
  | .error _, .ok _ => False
  | .ok _, .error _ => False

/-- Spec-side predicate: the three entity maps are non-nil. -/
def MapsSome (c : Configuration) : Prop :=
  c.Routers.isSome ∧ c.Middlewares.isSome ∧ c.Services.isSome

/-- Spec-side predicate: the entry is a plain file (not a subdirectory). -/
def isFile : Entry → Bool
  | .dir _ _ => false
  | .file _ _ => true

/-- Spec-side projection: the TLS references one listing entry
contributes to its directory's dedup set — nothing for subdirectories
(their TLS goes through their own dedup set), nothing for ineligible or
failing files, otherwise the built file's TLS slice. -/
def entryTLS : Entry → List Nat
  | .dir _ _ => []
  | .file fname fd =>
    if hasSuffix fname ".toml" || hasSuffix fname ".tmpl" then
      match loadFileConfigOnData fd true with
      | .error _ => []
      | .ok c => c.TLS.getD []
    else []

/-- Spec-side projection: all TLS references contributed by a listing's
entries, in listing order (duplicates kept). -/
def collectTLS : List Entry → List Nat
  | [] => []
  | e :: rest => entryTLS e ++ collectTLS rest

/-- Spec-side projection of the walk onto the per-directory TLS dedup
set: the set (in first-insertion order) after processing a flat listing,
used to relate `walkDir` to `dedupTLS`. -/
def flatSeen (seen : List Nat) : List Entry → List Nat
  | [] => seen
  | .dir _ _ :: rest => flatSeen seen rest
  | .file fname fd :: rest =>
    if hasSuffix fname ".toml" || hasSuffix fname ".tmpl" then
      match loadFileConfigOnData fd true with
      | .error _ => flatSeen seen rest
      | .ok c => flatSeen (dedupTLS seen (c.TLS.getD [])).1 rest
    else flatSeen seen rest

/-! Concrete fixtures used by counterexamples and witnesses. -/

/-- Fixture: a configuration value with the given four fields. -/
def confOf (r m s : Option (List (String × Nat))) (t : Option (List Nat)) :
    Configuration :=
  { Routers := r, Middlewares := m, Services := s, TLS := t }

/-- Fixture: a readable file whose template-rendered decode yields `c`
(the direct decode yields nil). -/
def fileOf (c : Option Configuration) : FileData :=
  Except.ok { createResult := Except.ok c, decodeResult := Except.ok none }

/-- Fixture: a file defining only one TLS entry with reference
identity `r`. -/
def tlsOnlyFile (r : Nat) : FileData :=
  fileOf (some (confOf none none none (some [r])))

/-- Fixture: a file defining only the router `n` with payload `v`. -/
def routerOnlyFile (n : String) (v : Nat) : FileData :=
  fileOf (some (confOf (some [(n, v)]) none none none))

/-- Fixture: a filesystem with one file defining only a TLS entry. -/
def fsTLSOnly : FS := { files := [("conf.toml", tlsOnlyFile 5)], dirs := [] }

/-- Fixture: a directory tree where the TLS entry with identity 7 appears
both in a subdirectory file and in a root-level file. -/
def fsCrossDirTLS : FS :=
  { files := [],
    dirs := [("cfg", [Entry.dir "sub" [Entry.file "a.toml" (tlsOnlyFile 7)],
                      Entry.file "b.toml" (tlsOnlyFile 7)])] }

/-- Fixture: one directory whose two files carry the same TLS entry. -/
def dupTLSListing : List Entry :=
  [Entry.file "a.toml" (tlsOnlyFile 7), Entry.file "b.toml" (tlsOnlyFile 7)]

/-- Fixture: a directory with one file carrying two distinct TLS
entries. -/
def fsTwoTLS : FS :=
  { files := [],
    dirs := [("cfg",
      [Entry.file "a.toml" (fileOf (some (confOf none none none
        (some [1, 2]))))])] }

/-- Fixture: listing in non-lexicographic order; both files define router
`r1`, with payload 2 in the first-listed file `20-b.toml` and payload 1
in `10-a.toml`. -/
def fsUnsortedRouters : FS :=
  { files := [],
    dirs := [("cfg", [Entry.file "20-b.toml" (routerOnlyFile "r1" 2),
                      Entry.file "10-a.toml" (routerOnlyFile "r1" 1)])] }

/-- Fixture: the same two files listed in lexicographic order. -/
def fsSortedRouters : FS :=
  { files := [],
    dirs := [("cfg", [Entry.file "10-a.toml" (routerOnlyFile "r1" 1),
                      Entry.file "20-b.toml" (routerOnlyFile "r1" 2)])] }

/-- Fixture: a filesystem where the configured file exists but reading it
fails. -/
def fsUnreadable : FS :=
  { files := [("conf.toml", Except.error "permission denied")], dirs := [] }

/-- Fixture: an empty filesystem (every stat fails). -/
def fsEmpty : FS := { files := [], dirs := [] }

/-- Fixture: a provider watching a single configured file. -/
def pFileWatch : Provider :=
  { Directory := "", Filename := "conf.toml", TraefikFile := "",
    Watch := true }

/-! Helper lemmas. -/

theorem string_ne_iff_length_pos (s : String) : s ≠ "" ↔ 0 < s.length := by
  cases s with
  | mk data => cases data <;> simp [String.length, String.ext_iff]

/-! Claim theorems. -/

/-- C4: with no directory, no filename, and no fallback file configured,
`BuildConfiguration` returns the configuration-target error (and no
snapshot); `Provide` surfaces that same error synchronously, sends no
delivery message, and starts no watcher — so no message is ever sent. -/
theorem noTarget_build_and_provide_error (fs : FS)
    (σ : List Nat → List Nat) (watcherOk : Bool) (watch : Bool) :
    BuildConfiguration
        { Directory := "", Filename := "", TraefikFile := "",
          Watch := watch } fs σ =
      .error "error using file configuration backend, no filename defined" ∧
    Provide
        { Directory := "", Filename := "", TraefikFile := "",
          Watch := watch } fs σ watcherOk =
      { result := .error
          "error using file configuration backend, no filename defined",
        sent := [], watcherStarted := false } := by
  constructor
  · rfl
  · rfl

/-- C5: the watch relevance filter: with a directory target every event
triggers the callback; with a single-file target (configured file, or
fallback file when no file is configured) an event triggers the callback
iff its filename component equals that file's filename component,
directory-path differences being ignored; all other events are
discarded. -/
theorem eventRelevant_iff (p : Provider) (evtName : String) :
    eventRelevant p evtName = true ↔
      (p.Directory ≠ "" ∨
        baseName evtName =
          baseName (if 0 < p.Filename.length then p.Filename
            else p.TraefikFile)) := by
  unfold eventRelevant
  by_cases hd : p.Directory = "" <;> simp [hd]

/-- C7: target precedence is directory, then configured file (built with
template rendering), then fallback file (built without template
rendering), both for the build entry point and for the path the watcher
subscribes to. -/
theorem target_precedence (p : Provider) (fs : FS)
    (σ : List Nat → List Nat) :
    (p.Directory ≠ "" →
      BuildConfiguration p fs σ =
          loadFileConfigFromDirectory σ fs p.Directory none ∧
        watchItemOf p = p.Directory) ∧
    (p.Directory = "" → p.Filename ≠ "" →
      BuildConfiguration p fs σ = loadFileConfig fs p.Filename true ∧
        watchItemOf p = dirName p.Filename) ∧
    (p.Directory = "" → p.Filename = "" → p.TraefikFile ≠ "" →
      BuildConfiguration p fs σ = loadFileConfig fs p.TraefikFile false ∧
        watchItemOf p = dirName p.TraefikFile) := by
  refine ⟨fun h1 => ?_, fun h1 h2 => ?_, fun h1 h2 h3 => ?_⟩
  · rw [string_ne_iff_length_pos] at h1
    simp [BuildConfiguration, watchItemOf, h1]
  · rw [string_ne_iff_length_pos] at h2
    simp [BuildConfiguration, watchItemOf, h1, h2]
  · rw [string_ne_iff_length_pos] at h3
    simp [BuildConfiguration, watchItemOf, h1, h2, h3]

/-- C7 witness: the three precedence branches at concrete providers. -/
theorem target_precedence_witness :
    (BuildConfiguration
        { Directory := "cfg", Filename := "f", TraefikFile := "t",
          Watch := true } fsEmpty id =
      loadFileConfigFromDirectory id fsEmpty "cfg" none) ∧
    (BuildConfiguration
        { Directory := "", Filename := "f", TraefikFile := "t",
          Watch := true } fsEmpty id =
      loadFileConfig fsEmpty "f" true) ∧
    (BuildConfiguration
        { Directory := "", Filename := "", TraefikFile := "t",
          Watch := true } fsEmpty id =
      loadFileConfig fsEmpty "t" false) :=
  ⟨((target_precedence
      { Directory := "cfg", Filename := "f", TraefikFile := "t",
        Watch := true } fsEmpty id).1 (by decide)).1,
   (((target_precedence
      { Directory := "", Filename := "f", TraefikFile := "t",
        Watch := true } fsEmpty id).2.1 rfl (by decide))).1,
   (((target_precedence
      { Directory := "", Filename := "", TraefikFile := "t",
        Watch := true } fsEmpty id).2.2 rfl rfl (by decide))).1⟩

/-- C6: on a watch-triggered rebuild whose stat check passes: a failing
build logs the error and sends no message (no retraction of the previous
snapshot), while a successful build sends exactly one message carrying
the new snapshot. -/
theorem watcherCallback_rebuild (p : Provider) (fs : FS)
    (σ : List Nat → List Nat) (evt : String)
    (hstat : fs.statOk (statTarget p) = true) :
    (∀ e, BuildConfiguration p fs σ = .error e →
      watcherCallback p fs σ evt =
        ([], ["Error occurred during watcher callback: " ++ e])) ∧
    (∀ c, BuildConfiguration p fs σ = .ok c →
      watcherCallback p fs σ evt = ([sendConfigToChannel c], [])) := by
  unfold watcherCallback
  refine ⟨fun e he => ?_, fun c hc => ?_⟩
  · simp [hstat, he]
  · simp [hstat, hc]

/-- C6 witness: a rebuild over an unreadable file logs the wrapped read
error and sends nothing. -/
theorem watcherCallback_rebuild_witness :
    watcherCallback pFileWatch fsUnreadable id "conf.toml" =
      ([], ["Error occurred during watcher callback: " ++
        ("error reading configuration file: " ++ "permission denied")]) :=
  (watcherCallback_rebuild pFileWatch fsUnreadable id "conf.toml"
      (by decide)).1
    ("error reading configuration file: " ++ "permission denied") (by decide)

/-- C10: when the stat check on the configured watch target fails, the
watcher callback logs an error and returns without rebuilding: no
message is sent, and nothing but the stat error is logged. -/
theorem watcherCallback_statFail (p : Provider) (fs : FS)
    (σ : List Nat → List Nat) (evt : String)
    (hstat : fs.statOk (statTarget p) = false) :
    watcherCallback p fs σ evt =
      ([], ["Unable to watch " ++ statTarget p]) := by
  unfold watcherCallback
  simp [hstat]

/-- C10 witness: deleting the watched file (an empty filesystem) produces
no message and one stat-error log. -/
theorem watcherCallback_statFail_witness :
    watcherCallback pFileWatch fsEmpty id "conf.toml" =
      ([], ["Unable to watch " ++ statTarget pFileWatch]) :=
  watcherCallback_statFail pFileWatch fsEmpty id "conf.toml" (by decide)

theorem lookupA_append_single (n k : String) (v : Nat)
    (acc : List (String × Nat)) :
    lookupA n (acc ++ [(k, v)]) =
      if (lookupA n acc).isSome then lookupA n acc
      else if k = n then some v else none := by
  induction acc with
  | nil => simp [lookupA]
  | cons hd tl ih =>
    obtain ⟨k2, v2⟩ := hd
    by_cases h : k2 = n <;> simp [lookupA, h, ih]

theorem lookupA_eq_none (n : String) (l : List (String × Nat))
    (h : n ∉ l.map Prod.fst) : lookupA n l = none := by
  induction l with
  | nil => rfl
  | cons hd tl ih =>
    obtain ⟨k, v⟩ := hd
    simp only [List.map_cons, List.mem_cons, not_or] at h
    rw [lookupA, if_neg (fun hh => h.1 hh.symm)]
    exact ih h.2

theorem mergeAssoc_lookup (mk : String → Warning) (n : String)
    (inc : List (String × Nat)) :
    ∀ acc, lookupA n (mergeAssoc mk acc inc).1 =
      if (lookupA n acc).isSome then lookupA n acc else lookupA n inc := by
  induction inc with
  | nil =>
    intro acc
    cases h : lookupA n acc <;> simp [mergeAssoc, lookupA, h]
  | cons hd tl ih =>
    intro acc
    obtain ⟨k, v⟩ := hd
    by_cases hk : (lookupA k acc).isSome
    · rw [mergeAssoc, if_pos hk]
      dsimp only
      rw [ih acc]
      by_cases hn : k = n
      · rw [hn] at hk
        rw [hn]
        simp [lookupA, hk]
      · simp [lookupA, hn]
    · rw [mergeAssoc, if_neg hk]
      rw [ih (acc ++ [(k, v)]), lookupA_append_single]
      by_cases hn : k = n
      · rw [hn] at hk
        rw [hn]
        simp only [Bool.not_eq_true] at hk
        simp [lookupA, hk]
      · cases hacc : lookupA n acc <;> simp [hacc, lookupA, hn]

theorem mergeAssoc_warn_mem (mk : String → Warning)
    (inc : List (String × Nat)) :
    ∀ acc w, w ∈ (mergeAssoc mk acc inc).2 → ∃ a, w = mk a := by
  induction inc with
  | nil =>
    intro acc w h
    simp [mergeAssoc] at h
  | cons hd tl ih =>
    intro acc w h
    obtain ⟨k, v⟩ := hd
    by_cases hk : (lookupA k acc).isSome
    · rw [mergeAssoc] at h
      simp only [hk, if_true] at h
      rcases List.mem_cons.mp h with h1 | h2
      · exact ⟨k, h1⟩
      · exact ih acc w h2
    · rw [mergeAssoc] at h
      simp only [hk, if_false] at h
      exact ih (acc ++ [(k, v)]) w h

theorem mergeAssoc_count (mk : String → Warning)
    (hmk : Function.Injective mk) (n : String)
    (inc : List (String × Nat)) :
    ∀ acc, (inc.map Prod.fst).Nodup →
      ((mergeAssoc mk acc inc).2).count (mk n) =
        if (lookupA n acc).isSome ∧ (lookupA n inc).isSome then 1
        else 0 := by
  induction inc with
  | nil =>
    intro acc _
    simp [mergeAssoc, lookupA]
  | cons hd tl ih =>
    intro acc hnd
    obtain ⟨k, v⟩ := hd
    simp only [List.map_cons, List.nodup_cons] at hnd
    obtain ⟨hk_not, hnd2⟩ := hnd
    by_cases hk : (lookupA k acc).isSome
    · rw [mergeAssoc, if_pos hk]
      dsimp only
      rw [List.count_cons, ih acc hnd2]
      by_cases hn : k = n
      · rw [hn] at hk_not hk
        rw [hn]
        have h2 : lookupA n tl = none := lookupA_eq_none n tl hk_not
        simp [lookupA, hk, h2]
      · have hne : mk n ≠ mk k := fun hcon => hn (hmk hcon).symm
        have hne2 : mk k ≠ mk n := fun hcon => hn (hmk hcon)
        simp [lookupA, hn, hne, hne2]
    · rw [mergeAssoc, if_neg hk]
      rw [ih (acc ++ [(k, v)]) hnd2, lookupA_append_single]
      by_cases hn : k = n
      · rw [hn] at hk_not hk
        rw [hn]
        have h2 : lookupA n tl = none := lookupA_eq_none n tl hk_not
        simp only [Bool.not_eq_true] at hk
        simp [lookupA, hk, h2]
      · cases hacc : lookupA n acc <;> simp [hacc, lookupA, hn]

theorem routerConflict_inj : Function.Injective Warning.routerConflict := by
  intro a b h
  injection h

theorem middlewareConflict_inj :
    Function.Injective Warning.middlewareConflict := by
  intro a b h
  injection h

theorem serviceConflict_inj : Function.Injective Warning.serviceConflict := by
  intro a b h
  injection h

theorem count_zero_of_other (mk : String → Warning) (w : Warning)
    (hw : ∀ a, w ≠ mk a) (inc acc : List (String × Nat)) :
    ((mergeAssoc mk acc inc).2).count w = 0 := by
  rw [List.count_eq_zero]
  intro hmem
  obtain ⟨a, ha⟩ := mergeAssoc_warn_mem mk inc acc w hmem
  exact hw a ha

/-- C1: merging one file's snapshot into the accumulator is
first-merged-wins for routers, middlewares, and services: a name already
present keeps the accumulator's payload and the incoming entry is
dropped with exactly one warning of the matching entity kind naming it;
a name not yet present is inserted with the incoming payload (and draws
no warning of its kind for that name). -/
theorem merge_first_wins (acc c : Configuration) (name : String)
    (hr : ((c.Routers.getD []).map Prod.fst).Nodup)
    (hm : ((c.Middlewares.getD []).map Prod.fst).Nodup)
    (hs : ((c.Services.getD []).map Prod.fst).Nodup) :
    (lookupA name ((mergeConfiguration acc c).1.Routers.getD []) =
        (if (lookupA name (acc.Routers.getD [])).isSome
          then lookupA name (acc.Routers.getD [])
          else lookupA name (c.Routers.getD [])) ∧
      ((mergeConfiguration acc c).2).count (Warning.routerConflict name) =
        (if (lookupA name (acc.Routers.getD [])).isSome ∧
            (lookupA name (c.Routers.getD [])).isSome then 1 else 0)) ∧
    (lookupA name ((mergeConfiguration acc c).1.Middlewares.getD []) =
        (if (lookupA name (acc.Middlewares.getD [])).isSome
          then lookupA name (acc.Middlewares.getD [])
          else lookupA name (c.Middlewares.getD [])) ∧
      ((mergeConfiguration acc c).2).count
          (Warning.middlewareConflict name) =
        (if (lookupA name (acc.Middlewares.getD [])).isSome ∧
            (lookupA name (c.Middlewares.getD [])).isSome then 1
          else 0)) ∧
    (lookupA name ((mergeConfiguration acc c).1.Services.getD []) =
        (if (lookupA name (acc.Services.getD [])).isSome
          then lookupA name (acc.Services.getD [])
          else lookupA name (c.Services.getD [])) ∧
      ((mergeConfiguration acc c).2).count (Warning.serviceConflict name) =
        (if (lookupA name (acc.Services.getD [])).isSome ∧
            (lookupA name (c.Services.getD [])).isSome then 1
          else 0)) := by
  unfold mergeConfiguration
  simp only [Option.getD_some, List.count_append]
  refine ⟨⟨?_, ?_⟩, ⟨?_, ?_⟩, ⟨?_, ?_⟩⟩
  · exact mergeAssoc_lookup _ name _ _
  · rw [mergeAssoc_count _ routerConflict_inj name _ _ hr,
      count_zero_of_other Warning.middlewareConflict _
        (fun a h => by cases h) _ _,
      count_zero_of_other Warning.serviceConflict _
        (fun a h => by cases h) _ _]
    simp
  · exact mergeAssoc_lookup _ name _ _
  · rw [mergeAssoc_count _ middlewareConflict_inj name _ _ hm,
      count_zero_of_other Warning.routerConflict _
        (fun a h => by cases h) _ _,
      count_zero_of_other Warning.serviceConflict _
        (fun a h => by cases h) _ _]
    simp
  · exact mergeAssoc_lookup _ name _ _
  · rw [mergeAssoc_count _ serviceConflict_inj name _ _ hs,
      count_zero_of_other Warning.routerConflict _
        (fun a h => by cases h) _ _,
      count_zero_of_other Warning.middlewareConflict _
        (fun a h => by cases h) _ _]
    simp

/-- C1 witness: merging a file that redefines router `r1` and adds `r2`
into an accumulator already holding `r1`. -/
theorem merge_first_wins_witness :
    lookupA "r1"
        ((mergeConfiguration
            (confOf (some [("r1", 1)]) (some []) (some []) none)
            (confOf (some [("r1", 2), ("r2", 3)]) (some []) (some [])
              none)).1.Routers.getD []) =
      (if (lookupA "r1"
            ((confOf (some [("r1", 1)]) (some []) (some [])
              none).Routers.getD [])).isSome
        then lookupA "r1"
          ((confOf (some [("r1", 1)]) (some []) (some [])
            none).Routers.getD [])
        else lookupA "r1"
          ((confOf (some [("r1", 2), ("r2", 3)]) (some []) (some [])
            none).Routers.getD [])) :=
  ((merge_first_wins
    (confOf (some [("r1", 1)]) (some []) (some []) none)
    (confOf (some [("r1", 2), ("r2", 3)]) (some []) (some []) none)
    "r1" (by decide) (by decide) (by decide)).1).1

/-- C9: the aggregator processes a directory's entries in listing order,
without sorting them: with the same file set listed non-lexicographically
the first-listed file `20-b.toml` wins the conflict on router `r1`
(payload 2), while under the lexicographic listing the winner is
`10-a.toml` (payload 1) — so the conflict winner follows listing order,
not lexicographic filename order. -/
theorem listing_order_determines_winner :
    (loadFileConfigFromDirectory id fsUnsortedRouters "cfg" none).map
        (fun c => lookupA "r1" (c.Routers.getD [])) = .ok (some 2) ∧
    (loadFileConfigFromDirectory id fsSortedRouters "cfg" none).map
        (fun c => lookupA "r1" (c.Routers.getD [])) = .ok (some 1) := by
  constructor <;> decide

theorem mergeConfiguration_mapsSome (a b : Configuration) :
    MapsSome (mergeConfiguration a b).1 := by
  simp [mergeConfiguration, MapsSome]

theorem walkDir_mapsSome (σ : List Nat → List Nat) :
    ∀ (n : Nat) (entries : List Entry), sizeOf entries ≤ n →
    ∀ (cfg : Configuration) (seen : List Nat) (ws : List Warning)
      (c : Configuration) (ws2 : List Warning),
      walkDir σ entries cfg seen ws = .ok (c, ws2) →
      MapsSome cfg → MapsSome c := by
  intro n
  induction n with
  | zero =>
    intro entries hn
    cases entries <;> simp at hn
  | succ n ih =>
    intro entries hn cfg seen ws c ws2 hwalk hcfg
    match entries with
    | [] =>
      rw [walkDir] at hwalk
      simp only [Except.ok.injEq, Prod.mk.injEq] at hwalk
      obtain ⟨hc, _⟩ := hwalk
      subst hc
      exact hcfg
    | .dir dname sub :: rest =>
      simp only [List.cons.sizeOf_spec, Entry.dir.sizeOf_spec] at hn
      rw [walkDir, walkEntry] at hwalk
      cases hsub : walkDir σ sub cfg [] [] with
      | error e => rw [hsub] at hwalk; simp at hwalk
      | ok pr =>
        obtain ⟨c2, subws⟩ := pr
        rw [hsub] at hwalk
        simp only [] at hwalk
        have hms2 : MapsSome c2 :=
          ih sub (by omega) cfg [] [] c2 subws hsub hcfg
        exact ih rest (by omega) c2 seen (ws ++ subws) c ws2 hwalk hms2
    | .file fname fd :: rest =>
      simp only [List.cons.sizeOf_spec, Entry.file.sizeOf_spec] at hn
      rw [walkDir, walkEntry] at hwalk
      by_cases helig : (hasSuffix fname ".toml" || hasSuffix fname ".tmpl")
          = true
      · rw [if_pos helig] at hwalk
        cases hload : loadFileConfigOnData fd true with
        | error e => rw [hload] at hwalk; simp at hwalk
        | ok c3 =>
          rw [hload] at hwalk
          simp only [] at hwalk
          exact ih rest (by omega) _ _ _ c ws2 hwalk
            (mergeConfiguration_mapsSome cfg c3)
      · rw [if_neg helig] at hwalk
        simp only [] at hwalk
        exact ih rest (by omega) cfg seen (ws ++ []) c ws2 hwalk hcfg

/-- C2 counterexample: a successful single-file build from a file whose
decode yields only a TLS entry (and nil maps) returns a snapshot whose
routers, middlewares, and services mappings are all nil — a consumer can
observe absent mappings after a successful build. -/
theorem build_can_return_nil_maps :
    loadFileConfig fsTLSOnly "conf.toml" true =
      .ok (confOf none none none (some [5])) ∧
    (confOf none none none (some [5])).Routers = none ∧
    (confOf none none none (some [5])).Middlewares = none ∧
    (confOf none none none (some [5])).Services = none := by
  refine ⟨by decide, rfl, rfl, rfl⟩

/-- C2 amended: the empty-defaults normalization applies exactly when the
decode produced nil or a configuration with all four of routers,
middlewares, services, and TLS nil — in particular a file defining zero
of everything yields the empty non-nil mappings — and every snapshot
produced by directory aggregation has non-nil routers/middlewares/
services; but a single-file snapshot whose decode has some non-nil field
keeps its nil mappings (see the counterexample). -/
theorem nil_normalization_scope :
    (∀ (cd : ContentData) (pt : Bool),
      ((if pt then cd.createResult else cd.decodeResult) = .ok none ∨
        (if pt then cd.createResult else cd.decodeResult) =
          .ok (some (confOf none none none none))) →
      loadFileConfigOnData (.ok cd) pt = .ok emptyConfiguration) ∧
    (∀ (σ : List Nat → List Nat) (fs : FS) (directory : String)
        (c : Configuration),
      loadFileConfigFromDirectory σ fs directory none = .ok c →
      MapsSome c) ∧
    MapsSome emptyConfiguration := by
  refine ⟨fun cd pt h => ?_, fun σ fs directory c h => ?_, ?_⟩
  · rcases h with h | h <;>
      simp [loadFileConfigOnData, h, confOf, emptyConfiguration]
  · unfold loadFileConfigFromDirectory at h
    cases hl : fs.lookupDir directory with
    | none => rw [hl] at h; simp at h
    | some fileList =>
      rw [hl] at h
      simp only [Option.getD_none] at h
      cases hw : walkDir σ fileList emptyConfiguration [] [] with
      | error e => rw [hw] at h; simp [Except.map] at h
      | ok pr =>
        obtain ⟨c2, ws⟩ := pr
        rw [hw] at h
        simp only [Except.map, Except.ok.injEq] at h
        subst h
        exact walkDir_mapsSome σ (sizeOf fileList) fileList le_rfl
          emptyConfiguration [] [] c2 ws hw
          (by simp [MapsSome, emptyConfiguration])
  · simp [MapsSome, emptyConfiguration]

/-- C2 amended witness: a decode-to-nil file normalizes to the empty
non-nil mappings, and a concrete directory aggregation yields non-nil
mappings. -/
theorem nil_normalization_scope_witness :
    loadFileConfigOnData
        (.ok { createResult := .ok none, decodeResult := .ok none }) true =
      .ok emptyConfiguration ∧
    MapsSome (confOf (some []) (some []) (some []) (some [1, 2])) :=
  ⟨nil_normalization_scope.1
      { createResult := .ok none, decodeResult := .ok none } true
      (Or.inl rfl),
   nil_normalization_scope.2.1 id fsTwoTLS "cfg"
      (confOf (some []) (some []) (some []) (some [1, 2])) (by decide)⟩

theorem dedupTLS_mem (x : Nat) :
    ∀ (l seen : List Nat),
      x ∈ (dedupTLS seen l).1 ↔ x ∈ seen ∨ x ∈ l := by
  intro l
  induction l with
  | nil => intro seen; simp [dedupTLS]
  | cons y rest ih =>
    intro seen
    by_cases hy : y ∈ seen
    · rw [dedupTLS, if_pos hy]
      dsimp only
      rw [ih seen]
      constructor
      · intro h
        rcases h with h | h
        · exact Or.inl h
        · exact Or.inr (List.mem_cons_of_mem y h)
      · intro h
        rcases h with h | h
        · exact Or.inl h
        · rcases List.mem_cons.mp h with h | h
          · exact Or.inl (h ▸ hy)
          · exact Or.inr h
    · rw [dedupTLS, if_neg hy]
      rw [ih (seen ++ [y])]
      simp [List.mem_append, or_assoc]

theorem dedupTLS_nodup :
    ∀ (l seen : List Nat), seen.Nodup → (dedupTLS seen l).1.Nodup := by
  intro l
  induction l with
  | nil => intro seen h; simpa [dedupTLS] using h
  | cons y rest ih =>
    intro seen h
    by_cases hy : y ∈ seen
    · rw [dedupTLS, if_pos hy]
      exact ih seen h
    · rw [dedupTLS, if_neg hy]
      refine ih (seen ++ [y]) ?_
      simp [List.nodup_append, h, hy]

theorem mergeConfiguration_tls (a b : Configuration) :
    (mergeConfiguration a b).1.TLS = a.TLS := rfl

theorem walkDir_flat_tls (σ : List Nat → List Nat) :
    ∀ (entries : List Entry), entries.all isFile = true →
    ∀ (cfg : Configuration) (seen : List Nat) (ws : List Warning)
      (c : Configuration) (ws2 : List Warning),
      walkDir σ entries cfg seen ws = .ok (c, ws2) →
      c.TLS = appendTLS cfg.TLS (σ (flatSeen seen entries)) := by
  intro entries
  induction entries with
  | nil =>
    intro _ cfg seen ws c ws2 hwalk
    rw [walkDir] at hwalk
    simp only [Except.ok.injEq, Prod.mk.injEq] at hwalk
    obtain ⟨hc, _⟩ := hwalk
    subst hc
    rfl
  | cons item rest ih =>
    intro hflat cfg seen ws c ws2 hwalk
    simp only [List.all_cons, Bool.and_eq_true] at hflat
    obtain ⟨hitem, hrest⟩ := hflat
    match item, hitem with
    | .file fname fd, _ =>
      rw [walkDir, walkEntry] at hwalk
      by_cases helig : (hasSuffix fname ".toml" || hasSuffix fname ".tmpl")
          = true
      · rw [if_pos helig] at hwalk
        cases hload : loadFileConfigOnData fd true with
        | error e => rw [hload] at hwalk; simp at hwalk
        | ok c3 =>
          rw [hload] at hwalk
          simp only [] at hwalk
          rw [ih hrest _ _ _ c ws2 hwalk, mergeConfiguration_tls]
          rw [flatSeen, if_pos helig, hload]
      · rw [if_neg helig] at hwalk
        simp only [] at hwalk
        rw [ih hrest _ _ _ c ws2 hwalk]
        rw [flatSeen, if_neg helig]

theorem flatSeen_mem (x : Nat) :
    ∀ (entries : List Entry) (seen : List Nat),
      x ∈ flatSeen seen entries ↔ x ∈ seen ∨ x ∈ collectTLS entries := by
  intro entries
  induction entries with
  | nil => intro seen; simp [flatSeen, collectTLS]
  | cons item rest ih =>
    intro seen
    match item with
    | .dir dname sub =>
      rw [flatSeen, ih seen]
      simp [collectTLS, entryTLS]
    | .file fname fd =>
      by_cases helig : (hasSuffix fname ".toml" || hasSuffix fname ".tmpl")
          = true
      · cases hload : loadFileConfigOnData fd true with
        | error e =>
          rw [flatSeen, if_pos helig, hload, ih seen]
          simp [collectTLS, entryTLS, helig, hload]
        | ok c3 =>
          rw [flatSeen, if_pos helig, hload, ih _, dedupTLS_mem]
          simp [collectTLS, entryTLS, helig, hload, List.mem_append,
            or_assoc]
      · rw [flatSeen, if_neg helig, ih seen]
        simp [collectTLS, entryTLS, helig]

theorem flatSeen_nodup :
    ∀ (entries : List Entry) (seen : List Nat), seen.Nodup →
      (flatSeen seen entries).Nodup := by
  intro entries
  induction entries with
  | nil => intro seen h; simpa [flatSeen] using h
  | cons item rest ih =>
    intro seen h
    match item with
    | .dir dname sub => rw [flatSeen]; exact ih seen h
    | .file fname fd =>
      by_cases helig : (hasSuffix fname ".toml" || hasSuffix fname ".tmpl")
          = true
      · cases hload : loadFileConfigOnData fd true with
        | error e => rw [flatSeen, if_pos helig, hload]; exact ih seen h
        | ok c3 =>
          rw [flatSeen, if_pos helig, hload]
          exact ih _ (dedupTLS_nodup _ seen h)
      · rw [flatSeen, if_neg helig]; exact ih seen h

theorem appendTLS_none_getD (l : List Nat) :
    (appendTLS none l).getD [] = l := by
  cases l <;> simp [appendTLS]

/-- C3 counterexample: the TLS entry with reference identity 7 appears
identically in two merged files — one in a subdirectory, one at the root
— and appears twice in the final collection (dedup is not tree-wide);
and within one directory a duplicate is dropped with a logged warning,
not silently. -/
theorem tls_cross_directory_duplicate :
    (loadFileConfigFromDirectory id fsCrossDirTLS "cfg" none).map
        (fun c => (c.TLS.getD []).count 7) = .ok 2 ∧
    walkDir id dupTLSListing emptyConfiguration [] [] =
      .ok (confOf (some []) (some []) (some []) (some [7]),
        [Warning.tlsConflict 7]) := by
  constructor <;> decide

/-- C3 amended: TLS deduplication by reference identity is per directory,
not tree-wide, and a dropped duplicate is logged, not silent: over one
directory's listing (no subdirectories) the references flushed onto the
accumulator at the end of that directory's processing are exactly the
distinct references of that directory's eligible files, each exactly
once (in map-iteration order); a reference already in the directory's
dedup set is dropped from re-appending with a logged warning; a
reference appearing in files of different directories is appended once
per directory. -/
theorem tls_dedup_per_directory (σ : List Nat → List Nat)
    (hσ : ∀ l, (σ l).Perm l) (entries : List Entry)
    (hflat : entries.all isFile = true) (c : Configuration)
    (ws : List Warning)
    (hwalk : walkDir σ entries emptyConfiguration [] [] = .ok (c, ws)) :
    ((c.TLS.getD []).Nodup ∧
      ∀ x, x ∈ c.TLS.getD [] ↔ x ∈ collectTLS entries) ∧
    (∀ (seen : List Nat) (x : Nat) (l : List Nat), x ∈ seen →
      (dedupTLS seen (x :: l)).1 = (dedupTLS seen l).1 ∧
        Warning.tlsConflict x ∈ (dedupTLS seen (x :: l)).2) := by
  have htls := walkDir_flat_tls σ entries hflat emptyConfiguration [] []
    c ws hwalk
  have hget : c.TLS.getD [] = σ (flatSeen [] entries) := by
    rw [htls]
    exact appendTLS_none_getD _
  refine ⟨⟨?_, fun x => ?_⟩, fun seen x l hx => ?_⟩
  · rw [hget]
    exact ((hσ (flatSeen [] entries)).symm.nodup
      (flatSeen_nodup entries [] List.nodup_nil))
  · rw [hget, (hσ _).mem_iff, flatSeen_mem]
    simp
  · rw [dedupTLS, if_pos hx]
    exact ⟨rfl, List.mem_cons_self _ _⟩

/-- C3 amended witness: one directory whose two files define the same TLS
reference 7 yields it once, with its duplication warned about. -/
theorem tls_dedup_per_directory_witness :
    (((confOf (some []) (some []) (some []) (some [7])).TLS.getD
        []).Nodup ∧
      ∀ x, x ∈ (confOf (some []) (some []) (some [])
          (some [7])).TLS.getD [] ↔ x ∈ collectTLS dupTLSListing) ∧
    (∀ (seen : List Nat) (x : Nat) (l : List Nat), x ∈ seen →
      (dedupTLS seen (x :: l)).1 = (dedupTLS seen l).1 ∧
        Warning.tlsConflict x ∈ (dedupTLS seen (x :: l)).2) :=
  tls_dedup_per_directory id (fun l => List.Perm.refl l) dupTLSListing
    (by decide) (confOf (some []) (some []) (some []) (some [7]))
    [Warning.tlsConflict 7] (by decide)

theorem TLSEquiv_appendTLS {t1 t2 : Option (List Nat)}
    {l1 l2 : List Nat} (ht : TLSEquiv t1 t2) (hp : l1.Perm l2) :
    TLSEquiv (appendTLS t1 l1) (appendTLS t2 l2) := by
  have hnil : l1 = [] ↔ l2 = [] := by
    constructor
    · intro h
      subst h
      exact hp.symm.eq_nil
    · intro h
      subst h
      exact hp.eq_nil
  cases t1 with
  | none =>
    cases t2 with
    | none =>
      by_cases hl1 : l1 = []
      · have hl2 := hnil.mp hl1
        simp [appendTLS, hl1, hl2, TLSEquiv]
      · have hl2 : l2 ≠ [] := fun he => hl1 (hnil.mpr he)
        simp only [appendTLS, if_neg hl1, if_neg hl2]
        simpa [TLSEquiv] using hp
    | some b => exact absurd ht (by simp [TLSEquiv])
  | some a =>
    cases t2 with
    | none => exact absurd ht (by simp [TLSEquiv])
    | some b =>
      have hab : a.Perm b := ht
      by_cases hl1 : l1 = []
      · have hl2 := hnil.mp hl1
        simpa [appendTLS, hl1, hl2, TLSEquiv] using hab
      · have hl2 : l2 ≠ [] := fun he => hl1 (hnil.mpr he)
        simp only [appendTLS, if_neg hl1, if_neg hl2]
        simpa [TLSEquiv] using hab.append hp

theorem ConfEquiv_refl (c : Configuration) : ConfEquiv c c := by
  refine ⟨rfl, rfl, rfl, ?_⟩
  cases c.TLS <;> simp [TLSEquiv]

theorem mergeConfiguration_congr (c : Configuration)
    {a b : Configuration} (h : ConfEquiv a b) :
    ConfEquiv (mergeConfiguration a c).1 (mergeConfiguration b c).1 ∧
      (mergeConfiguration a c).2 = (mergeConfiguration b c).2 := by
  obtain ⟨hr, hm, hs, ht⟩ := h
  simp only [mergeConfiguration]
  rw [hr, hm, hs]
  exact ⟨⟨rfl, rfl, rfl, ht⟩, rfl⟩

theorem walkDir_nil (σ : List Nat → List Nat) (cfg : Configuration)
    (seen : List Nat) (ws : List Warning) :
    walkDir σ [] cfg seen ws =
      .ok ({ cfg with TLS := appendTLS cfg.TLS (σ seen) }, ws) := rfl

theorem walkDir_cons_dir_err (σ : List Nat → List Nat) (dname : String)
    (sub rest : List Entry) (cfg : Configuration) (seen : List Nat)
    (ws : List Warning) (e : String)
    (hsub : walkDir σ sub cfg [] [] = .error e) :
    walkDir σ (.dir dname sub :: rest) cfg seen ws =
      .error ("unable to load content configuration from subdirectory "
        ++ dname ++ ": " ++ e) := by
  rw [walkDir, walkEntry, hsub]

theorem walkDir_cons_dir_ok (σ : List Nat → List Nat) (dname : String)
    (sub rest : List Entry) (cfg : Configuration) (seen : List Nat)
    (ws : List Warning) (c2 : Configuration) (subws : List Warning)
    (hsub : walkDir σ sub cfg [] [] = .ok (c2, subws)) :
    walkDir σ (.dir dname sub :: rest) cfg seen ws =
      walkDir σ rest c2 seen (ws ++ subws) := by
  rw [walkDir, walkEntry, hsub]

theorem walkDir_cons_file_err (σ : List Nat → List Nat) (fname : String)
    (fd : FileData) (rest : List Entry) (cfg : Configuration)
    (seen : List Nat) (ws : List Warning) (e : String)
    (helig : (hasSuffix fname ".toml" || hasSuffix fname ".tmpl") = true)
    (hload : loadFileConfigOnData fd true = .error e) :
    walkDir σ (.file fname fd :: rest) cfg seen ws = .error e := by
  rw [walkDir, walkEntry, if_pos helig, hload]

theorem walkDir_cons_file_ok (σ : List Nat → List Nat) (fname : String)
    (fd : FileData) (rest : List Entry) (cfg : Configuration)
    (seen : List Nat) (ws : List Warning) (c3 : Configuration)
    (helig : (hasSuffix fname ".toml" || hasSuffix fname ".tmpl") = true)
    (hload : loadFileConfigOnData fd true = .ok c3) :
    walkDir σ (.file fname fd :: rest) cfg seen ws =
      walkDir σ rest (mergeConfiguration cfg c3).1
        (dedupTLS seen (c3.TLS.getD [])).1
        (ws ++ ((mergeConfiguration cfg c3).2 ++
          (dedupTLS seen (c3.TLS.getD [])).2)) := by
  rw [walkDir, walkEntry, if_pos helig, hload]

theorem walkDir_cons_file_skip (σ : List Nat → List Nat) (fname : String)
    (fd : FileData) (rest : List Entry) (cfg : Configuration)
    (seen : List Nat) (ws : List Warning)
    (helig : (hasSuffix fname ".toml" || hasSuffix fname ".tmpl")
      = false) :
    walkDir σ (.file fname fd :: rest) cfg seen ws =
      walkDir σ rest cfg seen (ws ++ []) := by
  rw [walkDir, walkEntry, if_neg (by simp [helig])]

theorem walkDir_equiv (σ1 σ2 : List Nat → List Nat)
    (h1 : ∀ l, (σ1 l).Perm l) (h2 : ∀ l, (σ2 l).Perm l) :
    ∀ (n : Nat) (entries : List Entry), sizeOf entries ≤ n →
    ∀ (cfg1 cfg2 : Configuration) (seen : List Nat)
      (ws1 ws2 : List Warning),
      ConfEquiv cfg1 cfg2 → ws1.Perm ws2 →
      WalkEquiv (walkDir σ1 entries cfg1 seen ws1)
        (walkDir σ2 entries cfg2 seen ws2) := by
  intro n
  induction n with
  | zero =>
    intro entries hn
    cases entries <;> simp at hn
  | succ n ih =>
    intro entries hn cfg1 cfg2 seen ws1 ws2 hc hws
    match entries with
    | [] =>
      rw [walkDir_nil, walkDir_nil]
      exact ⟨⟨hc.1, hc.2.1, hc.2.2.1,
        TLSEquiv_appendTLS hc.2.2.2 ((h1 seen).trans (h2 seen).symm)⟩,
        hws⟩
    | .dir dname sub :: rest =>
      simp only [List.cons.sizeOf_spec, Entry.dir.sizeOf_spec] at hn
      have hsub := ih sub (by omega) cfg1 cfg2 [] [] [] hc
        (List.Perm.refl [])
      cases e1 : walkDir σ1 sub cfg1 [] [] with
      | error s1 =>
        cases e2 : walkDir σ2 sub cfg2 [] [] with
        | error s2 =>
          rw [e1, e2] at hsub
          have hss : s1 = s2 := hsub
          rw [walkDir_cons_dir_err σ1 dname sub rest cfg1 seen ws1 s1 e1,
            walkDir_cons_dir_err σ2 dname sub rest cfg2 seen ws2 s2 e2,
            hss]
          exact rfl
        | ok pr2 =>
          rw [e1, e2] at hsub
          exact absurd hsub (by cases pr2; simp [WalkEquiv])
      | ok pr1 =>
        obtain ⟨c21, subws1⟩ := pr1
        cases e2 : walkDir σ2 sub cfg2 [] [] with
        | error s2 =>
          rw [e1, e2] at hsub
          exact absurd hsub (by simp [WalkEquiv])
        | ok pr2 =>
          obtain ⟨c22, subws2⟩ := pr2
          rw [e1, e2] at hsub
          obtain ⟨hcc, hww⟩ := hsub
          rw [walkDir_cons_dir_ok σ1 dname sub rest cfg1 seen ws1 c21
              subws1 e1,
            walkDir_cons_dir_ok σ2 dname sub rest cfg2 seen ws2 c22
              subws2 e2]
          exact ih rest (by omega) c21 c22 seen (ws1 ++ subws1)
            (ws2 ++ subws2) hcc (hws.append hww)
    | .file fname fd :: rest =>
      simp only [List.cons.sizeOf_spec, Entry.file.sizeOf_spec] at hn
      by_cases helig : (hasSuffix fname ".toml" || hasSuffix fname ".tmpl")
          = true
      · cases hload : loadFileConfigOnData fd true with
        | error e =>
          rw [walkDir_cons_file_err σ1 fname fd rest cfg1 seen ws1 e helig
              hload,
            walkDir_cons_file_err σ2 fname fd rest cfg2 seen ws2 e helig
              hload]
          exact rfl
        | ok c3 =>
          have hmc := mergeConfiguration_congr c3 hc
          rw [walkDir_cons_file_ok σ1 fname fd rest cfg1 seen ws1 c3 helig
              hload,
            walkDir_cons_file_ok σ2 fname fd rest cfg2 seen ws2 c3 helig
              hload,
            hmc.2]
          exact ih rest (by omega) _ _ _ _ _ hmc.1
            (hws.append (List.Perm.refl _))
      · have helig2 : (hasSuffix fname ".toml" || hasSuffix fname ".tmpl")
            = false := by
          simpa using helig
        rw [walkDir_cons_file_skip σ1 fname fd rest cfg1 seen ws1 helig2,
          walkDir_cons_file_skip σ2 fname fd rest cfg2 seen ws2 helig2]
        exact ih rest (by omega) cfg1 cfg2 seen (ws1 ++ [])
          (ws2 ++ []) hc (hws.append (List.Perm.refl _))

/-- C8 counterexample: on one unchanged directory tree (same file
contents, same listings), two aggregator runs whose Go-map iteration
orders differ — identity and reversal, both legitimate orders since both
permute the dedup set — produce structurally different snapshots: the
TLS collection order is not reproducible. -/
theorem tls_order_not_reproducible :
    (∀ l : List Nat, (List.reverse l).Perm l) ∧
    loadFileConfigFromDirectory id fsTwoTLS "cfg" none ≠
      loadFileConfigFromDirectory List.reverse fsTwoTLS "cfg" none :=
  ⟨fun l => List.reverse_perm l, by decide⟩

/-- C8 amended: two aggregator runs on the same unchanged directory tree
(same file contents, same listing results) yield snapshots that are
structurally identical except possibly in the order of the TLS
collection: the routers, middlewares, and services mappings coincide and
the TLS collections are permutations of each other; only the TLS element
order — inherited from Go's unspecified map iteration order, modelled by
the permutation oracles `σ1`, `σ2` — may differ between the two runs. -/
theorem aggregator_deterministic_up_to_tls_order
    (σ1 σ2 : List Nat → List Nat) (h1 : ∀ l, (σ1 l).Perm l)
    (h2 : ∀ l, (σ2 l).Perm l) (fs : FS) (directory : String)
    (c1 c2 : Configuration)
    (hr1 : loadFileConfigFromDirectory σ1 fs directory none = .ok c1)
    (hr2 : loadFileConfigFromDirectory σ2 fs directory none = .ok c2) :
    ConfEquiv c1 c2 := by
  unfold loadFileConfigFromDirectory at hr1 hr2
  cases hl : fs.lookupDir directory with
  | none =>
    rw [hl] at hr1
    simp at hr1
  | some fileList =>
    rw [hl] at hr1 hr2
    simp only [Option.getD_none] at hr1 hr2
    have hw := walkDir_equiv σ1 σ2 h1 h2 (sizeOf fileList) fileList
      le_rfl emptyConfiguration emptyConfiguration [] [] []
      (ConfEquiv_refl _) (List.Perm.refl [])
    cases e1 : walkDir σ1 fileList emptyConfiguration [] [] with
    | error s1 =>
      rw [e1] at hr1
      simp [Except.map] at hr1
    | ok pr1 =>
      obtain ⟨c1w, ws1⟩ := pr1
      cases e2 : walkDir σ2 fileList emptyConfiguration [] [] with
      | error s2 =>
        rw [e2] at hr2
        simp [Except.map] at hr2
      | ok pr2 =>
        obtain ⟨c2w, ws2⟩ := pr2
        rw [e1] at hr1
        rw [e2] at hr2
        simp only [Except.map, Except.ok.injEq] at hr1 hr2
        rw [e1, e2] at hw
        obtain ⟨hcc, _⟩ := hw
        subst hr1
        subst hr2
        exact hcc

/-- C8 amended witness: the relation holds at a concrete filesystem with
the identity iteration order on both runs. -/
theorem aggregator_deterministic_witness :
    ConfEquiv (confOf (some []) (some []) (some []) (some [1, 2]))
      (confOf (some []) (some []) (some []) (some [1, 2])) :=
  aggregator_deterministic_up_to_tls_order id id
    (fun l => List.Perm.refl l) (fun l => List.Perm.refl l) fsTwoTLS
    "cfg" (confOf (some []) (some []) (some []) (some [1, 2]))
    (confOf (some []) (some []) (some []) (some [1, 2]))
    (by decide) (by decide)

/-- C5 witness: the relevance rule instantiated at a single-file provider
and a concrete event path. -/
theorem eventRelevant_iff_witness :
    eventRelevant pFileWatch "/a/b/conf.toml" = true ↔
      (pFileWatch.Directory ≠ "" ∨
        baseName "/a/b/conf.toml" =
          baseName (if 0 < pFileWatch.Filename.length then
            pFileWatch.Filename else pFileWatch.TraefikFile)) :=
  eventRelevant_iff pFileWatch "/a/b/conf.toml"

end FileProvider
